import Mathlib

/-!
Verification of the railway reservation data pipeline.

Shallow embedding of the two core components:
- seat-inventory generation (backend/app/services/seatgen.py), and
- the import pipeline: route mapping and schedule reconciliation
  (scripts/import_data.py).

Python dict literals are embedded as association lists, SQL tables touched by
the claims as in-memory lists, and machine integers as Nat/Int. Database
upserts are modelled as list transformations with the same key semantics.
-/

namespace Railway

/-! ## seatgen.py : constants -/

/-- DEFAULT_SEATS_PER_COACH table from seatgen.py. -/
def DEFAULT_SEATS_PER_COACH : List (String × Nat) :=
  [("SL", 72), ("3A", 64), ("2A", 48), ("1A", 24), ("CC", 78), ("2S", 108), ("GEN", 90)]

/-- COACH_PREFIX table from seatgen.py: class code to coach-letter.
Each value in the source is a one-character string, embedded here as a Char. -/
def COACH_LETTER : List (String × Char) :=
  [("SL", 'S'), ("3A", 'A'), ("2A", 'B'), ("1A", 'H'), ("CC", 'C'), ("2S", 'D'), ("GEN", 'G')]

/-- BASE_PRICE_PER_KM table from seatgen.py (paise per km). -/
def BASE_PRICE_PER_KM : List (String × Nat) :=
  [("1A", 500), ("2A", 350), ("3A", 250), ("SL", 100), ("CC", 120), ("2S", 50), ("GEN", 30)]

/-- COACH_PREFIX.get(class_code, X): dictionary lookup with default. -/
def coachLetter (classCode : String) : Char :=
  ((COACH_LETTER.lookup classCode).getD 'X')

/-- BASE_PRICE_PER_KM.get / membership: dictionary lookup returning an option. -/
def basePricePerKm (classCode : String) : Option Nat :=
  BASE_PRICE_PER_KM.lookup classCode

/-! ## Decimal rendering of numbers, as Python f-strings do -/

/-- One decimal digit to its character (total function; inputs are < 10). -/
def digitChar : Nat → Char
  | 0 => '0' | 1 => '1' | 2 => '2' | 3 => '3' | 4 => '4'
  | 5 => '5' | 6 => '6' | 7 => '7' | 8 => '8' | 9 => '9'
  | _ => '*'

/-- Fuel-driven decimal rendering; fuel at least n makes it total. -/
def natDigitsGo : Nat → Nat → List Char
  | 0, n => [digitChar n]
  | fuel + 1, n =>
      if n < 10 then [digitChar n]
      else natDigitsGo fuel (n / 10) ++ [digitChar (n % 10)]

/-- Decimal digit string of a natural number, as a Python f-string renders it. -/
def natDigits (n : Nat) : List Char := natDigitsGo n n

/-! ## seatgen.py : seat rows -/

/-- Value type of the Python seat dict: integers or strings. -/
inductive SeatVal where
  | i : Int → SeatVal
  | s : String → SeatVal
  deriving DecidableEq, Repr

/-- A Python dict embedded as an association list of key-value pairs. -/
abbrev SeatDict := List (String × SeatVal)

/-- Price computation from generate_seat_rows (seatgen.py lines 120-126):
`if distance_km and class_code in BASE_PRICE_PER_KM` takes the product branch;
any falsy distance (absent or zero) or unknown class code falls back to
500 km times the table rate (default 100). -/
def seatPrice (classCode : String) (distanceKm : Option Nat) : Nat :=
  match distanceKm with
  | some d =>
      if d ≠ 0 ∧ (basePricePerKm classCode).isSome then
        d * (basePricePerKm classCode).getD 0
      else
        500 * (basePricePerKm classCode).getD 100
  | none => 500 * (basePricePerKm classCode).getD 100

/-- Berth classification from generate_seat_rows (seatgen.py lines 136-163).
The source computes this into a local variable `berth_type`. -/
def berth_type (classCode : String) (seatNum : Nat) : Option String :=
  if classCode ∈ (["SL", "3A", "2A", "1A"] : List String) then
    if classCode ∈ (["SL", "3A"] : List String) then
      if seatNum % 8 = 1 ∨ seatNum % 8 = 4 then some "LB"
      else if seatNum % 8 = 2 ∨ seatNum % 8 = 5 then some "MB"
      else if seatNum % 8 = 3 ∨ seatNum % 8 = 6 then some "UB"
      else if seatNum % 8 = 7 then some "SL"
      else some "SU"
    else if classCode = "2A" then
      if seatNum % 6 = 1 ∨ seatNum % 6 = 3 ∨ seatNum % 6 = 5 then some "LB"
      else some "UB"
    else if classCode = "1A" then
      if seatNum % 4 = 1 ∨ seatNum % 4 = 3 then some "LB"
      else some "UB"
    else none
  else none

/-- Coach name f-string: coach letter followed by the decimal coach number. -/
def coachName (classCode : String) (coachNum : Nat) : List Char :=
  coachLetter classCode :: natDigits coachNum

/-- Composite seat number f-string: coach name, a dash, then the seat index. -/
def seatNumberChars (classCode : String) (coachNum seatNum : Nat) : List Char :=
  coachName classCode coachNum ++ '-' :: natDigits seatNum

/-- The dict literal appended for each seat (seatgen.py lines 165-172).
Its keys are exactly the six below; the computed berth type is not among them. -/
def mkSeatDict (trainRunId : Nat) (classCode : String) (coachNum seatNum : Nat)
    (price : Nat) : SeatDict :=
  [("train_run_id", SeatVal.i trainRunId),
   ("seat_number", SeatVal.s (String.mk (seatNumberChars classCode coachNum seatNum))),
   ("coach_number", SeatVal.s (String.mk (coachName classCode coachNum))),
   ("seat_class", SeatVal.s classCode),
   ("status", SeatVal.s "AVAILABLE"),
   ("price_cents", SeatVal.i price)]

/-- generate_seat_rows (seatgen.py lines 98-174): per coach (1-based), per seat
(1-based) produce the seat dict; the price is computed once per class. -/
def generate_seat_rows (trainRunId : Nat) (classCode : String)
    (numCoaches seatsPerCoach : Nat) (distanceKm : Option Nat) : List SeatDict :=
  (List.range' 1 numCoaches).flatMap fun coachNum =>
    (List.range' 1 seatsPerCoach).map fun seatNum =>
      mkSeatDict trainRunId classCode coachNum seatNum (seatPrice classCode distanceKm)

/-- A normalized class configuration as parse_classes_config returns it:
an ordered list of (class code, coaches, seats per coach). -/
abbrev ClassesConfig := List (String × Nat × Nat)

/-- The per-run seat list built by looping generate_seat_rows over the
configuration classes (seatgen.py lines 241-254 and 328-337). -/
def genAllSeats (trainRunId : Nat) (cfg : ClassesConfig) (distanceKm : Option Nat) :
    List SeatDict :=
  cfg.flatMap fun e => generate_seat_rows trainRunId e.1 e.2.1 e.2.2 distanceKm

/-- Seat-number field of a produced row (dict lookup). -/
def rowSeatNumber (row : SeatDict) : Option SeatVal :=
  row.lookup "seat_number"

/-- Price field of a produced row (dict lookup). -/
def rowPrice (row : SeatDict) : Option SeatVal :=
  row.lookup "price_cents"

/-! ## seatgen.py : run state and generation entry points -/

/-- The slice of database state owned by one train run: its seat rows and the
counters (and status) stored on the train_runs row. -/
structure RunState where
  seats : List SeatDict
  status : String
  totalSeats : Int
  availableSeats : Int
  deriving DecidableEq, Repr

/-- generate_seats_for_train_run (seatgen.py lines 287-351) acting on the state
of its target run: count existing seats, bail out with 0 when nonzero;
otherwise build all seats, and only when nonempty insert them and set both
counters to the generated count. Returns (seats created, new state). -/
def generate_seats_for_train_run (trainRunId : Nat) (cfg : ClassesConfig)
    (distanceKm : Option Nat) (st : RunState) : Nat × RunState :=
  if st.seats.length > 0 then (0, st)
  else
    let allSeats := genAllSeats trainRunId cfg distanceKm
    if allSeats.isEmpty then (allSeats.length, st)
    else
      (allSeats.length,
       { st with
          seats := st.seats ++ allSeats,
          totalSeats := (allSeats.length : Int),
          availableSeats := (allSeats.length : Int) })

/-- Loop body of generate_seats_for_runs (seatgen.py lines 235-269) for one
selected run: the batch query only selects runs having zero seats, then
inserts all generated seats and sets both counters to the generated count. -/
def generate_seats_for_runs_step (trainRunId : Nat) (cfg : ClassesConfig)
    (distanceKm : Option Nat) (st : RunState) : Nat × RunState :=
  let allSeats := genAllSeats trainRunId cfg distanceKm
  (allSeats.length,
   { st with
      seats := st.seats ++ allSeats,
      totalSeats := (allSeats.length : Int),
      availableSeats := (allSeats.length : Int) })

/-- create_sample_train_runs (import_data.py lines 497-520) inserts each run as
VALUES (train, date, SCHEDULED, 100, 100): no seats yet, counters preset. -/
def create_sample_train_run : RunState :=
  { seats := [], status := "SCHEDULED", totalSeats := 100, availableSeats := 100 }

/-! ## import_data.py : schedule reconciliation -/

/-- One raw record of schedules.json: train grouping is already done, so the
embedded record carries station code, optional day, optional time strings. -/
structure SchedRecord where
  station_code : String
  day : Option Int
  arrival : Option String
  departure : Option String
  deriving DecidableEq, Repr

/-- One row of the train_stops table for a fixed train. The day_offset column
is NOT NULL DEFAULT 0, so draft rows inserted without it carry 0. -/
structure StopRow where
  seq : Nat
  station : String
  arrival : Option String
  departure : Option String
  dayOffset : Int
  deriving DecidableEq, Repr

/-- Lexicographic comparison of char lists, as Python compares str values
(code point by code point, a strict prefix being smaller). -/
def strLtChars : List Char → List Char → Bool
  | [], [] => false
  | [], _ :: _ => true
  | _ :: _, [] => false
  | a :: as, b :: bs =>
      if a < b then true else if b < a then false else strLtChars as bs

/-- First component of the Python sort key (import_data.py line 464):
day when present, else 1. -/
def schedDay (r : SchedRecord) : Int := r.day.getD 1

/-- Second component of the Python sort key (import_data.py line 465):
the departure string when present (the literal string None included), else
the string 00:00:00. -/
def schedDep (r : SchedRecord) : String := r.departure.getD "00:00:00"

/-- Strict comparison of the Python tuple keys (day, departure). -/
def schedKeyLt (a b : SchedRecord) : Bool :=
  if schedDay a < schedDay b then true
  else if schedDay b < schedDay a then false
  else strLtChars (schedDep a).data (schedDep b).data

/-- Stable insertion of x into a sorted list: x goes before the first element
not strictly below it, so equal keys keep their original relative order. -/
def stableInsert (lt : α → α → Bool) (x : α) : List α → List α
  | [] => [x]
  | y :: ys => if lt y x then y :: stableInsert lt x ys else x :: y :: ys

/-- Stable ascending sort, the function Python builtin sorted computes:
processing from the right, each element is inserted before strictly-greater
elements only, preserving the relative order of equal keys. -/
def pySorted (lt : α → α → Bool) : List α → List α
  | [] => []
  | x :: xs => stableInsert lt x (pySorted lt xs)

/-- The None-sentinel normalization applied when storing a time string
(import_data.py lines 483-484): the literal string None becomes null. -/
def normTime (t : Option String) : Option String :=
  if t = some "None" then none else t

/-- The StopRow written for the record ranked seqN in sorted order
(import_data.py lines 469-486). -/
def recordToStop (seqN : Nat) (r : SchedRecord) : StopRow :=
  { seq := seqN,
    station := r.station_code,
    arrival := normTime r.arrival,
    departure := normTime r.departure,
    dayOffset := r.day.getD 1 - 1 }

/-- INSERT ... ON CONFLICT(train_id, stop_sequence) DO UPDATE: if a row with
the same sequence exists, overwrite its station, arrival, departure and
day-offset; otherwise append the new row. -/
def upsertStop (stops : List StopRow) (r : StopRow) : List StopRow :=
  if stops.any fun s => s.seq == r.seq then
    stops.map fun s =>
      if s.seq == r.seq then
        { s with
            station := r.station,
            arrival := r.arrival,
            departure := r.departure,
            dayOffset := r.dayOffset }
      else s
  else stops ++ [r]

/-- import_schedules for one matched train (import_data.py lines 449-492):
sort the records by (day, departure), enumerate from 1, and upsert each into
the train_stops rows of that train. -/
def import_schedules_train (stops0 : List StopRow) (records : List SchedRecord) :
    List StopRow :=
  let stops_sorted := pySorted schedKeyLt records
  ((List.range' 1 stops_sorted.length).zip stops_sorted).foldl
    (fun st p => upsertStop st (recordToStop p.1 p.2)) stops0

/-! ## import_data.py : route mapper -/

/-- Warning kinds written to mapping_warnings by map_route_to_stations. -/
inductive WarnKind where
  | LARGE_DISTANCE
  | NO_STATION_NEARBY
  deriving DecidableEq, Repr

/-- A mapping_warnings row (train number and free-text message omitted; the
coordinate is kept abstract alongside its index). -/
structure MapWarn (C : Type) where
  kind : WarnKind
  coordIndex : Nat
  coord : C
  nearestStation : Option String
  distanceKm : Option ℚ
  deriving DecidableEq, Repr

/-- map_route_to_stations loop (import_data.py lines 283-321), parametrized by
the nearest-station query find (the spatial index with the 15 km threshold
already applied). For each coordinate: if a station is found, accept it only
when its code differs from the previously accepted one, and emit a
LARGE_DISTANCE warning whenever the distance exceeds 5 km, accepted or not;
if none is found, emit a NO_STATION_NEARBY warning. Returns the accepted
(station, coordinate index) list and the warning list. -/
def mapRouteGo (find : C → Option (String × ℚ)) :
    List C → Nat → Option String → List (String × Nat) × List (MapWarn C)
  | [], _, _ => ([], [])
  | coord :: rest, idx, prev =>
    match find coord with
    | some (code, dist) =>
        let accept := some code ≠ prev
        let res := mapRouteGo find rest (idx + 1) (if accept then some code else prev)
        ((if accept then (code, idx) :: res.1 else res.1),
         (if dist > 5 then
            { kind := WarnKind.LARGE_DISTANCE, coordIndex := idx, coord := coord,
              nearestStation := some code, distanceKm := some dist } :: res.2
          else res.2))
    | none =>
        let res := mapRouteGo find rest (idx + 1) prev
        (res.1,
         { kind := WarnKind.NO_STATION_NEARBY, coordIndex := idx, coord := coord,
           nearestStation := none, distanceKm := none } :: res.2)

/-- map_route_to_stations entry: indices start at 0, no previous station. -/
def map_route_to_stations (find : C → Option (String × ℚ)) (coords : List C) :
    List (String × Nat) × List (MapWarn C) :=
  mapRouteGo find coords 0 none

/-! ## Lemmas on decimal rendering -/

/-- Numeric value of a decimal digit character (total; inputs are digits). -/
def charVal : Char → Nat
  | '0' => 0 | '1' => 1 | '2' => 2 | '3' => 3 | '4' => 4
  | '5' => 5 | '6' => 6 | '7' => 7 | '8' => 8 | '9' => 9
  | _ => 0

/-- Decode a digit string back to the number it denotes. -/
def digitsToNat (l : List Char) : Nat :=
  l.foldl (fun acc c => acc * 10 + charVal c) 0

theorem charVal_digitChar {d : Nat} (h : d < 10) : charVal (digitChar d) = d := by
  interval_cases d <;> rfl

theorem digitChar_ne_dash (d : Nat) : digitChar d ≠ '-' := by
  unfold digitChar
  split <;> decide

theorem digitsToNat_append_digit (l : List Char) (c : Char) :
    digitsToNat (l ++ [c]) = 10 * digitsToNat l + charVal c := by
  simp [digitsToNat, List.foldl_append, Nat.mul_comm]

theorem digitsToNat_natDigitsGo :
    ∀ fuel n, n ≤ fuel → digitsToNat (natDigitsGo fuel n) = n := by
  intro fuel
  induction fuel with
  | zero =>
      intro n hn
      interval_cases n
      rfl
  | succ f ih =>
      intro n hn
      by_cases h : n < 10
      · simp [natDigitsGo, h, digitsToNat, charVal_digitChar h]
      · have hdiv : n / 10 < n := Nat.div_lt_self (by omega) (by omega)
        rw [natDigitsGo, if_neg h, digitsToNat_append_digit, ih _ (by omega),
          charVal_digitChar (Nat.mod_lt _ (by omega))]
        omega

theorem natDigits_injective : Function.Injective natDigits := by
  intro m n h
  calc m = digitsToNat (natDigits m) := (digitsToNat_natDigitsGo m m le_rfl).symm
    _ = digitsToNat (natDigits n) := by rw [h]
    _ = n := digitsToNat_natDigitsGo n n le_rfl

theorem dash_not_mem_natDigitsGo : ∀ fuel n, '-' ∉ natDigitsGo fuel n := by
  intro fuel
  induction fuel with
  | zero =>
      intro n
      simp only [natDigitsGo, List.mem_singleton]
      exact fun h => digitChar_ne_dash n h.symm
  | succ f ih =>
      intro n
      by_cases h : n < 10
      · simp only [natDigitsGo, if_pos h, List.mem_singleton]
        exact fun hc => digitChar_ne_dash n hc.symm
      · simp only [natDigitsGo, if_neg h, List.mem_append, List.mem_singleton]
        rintro (hc | hc)
        · exact ih _ hc
        · exact digitChar_ne_dash _ hc.symm

theorem dash_not_mem_natDigits (n : Nat) : '-' ∉ natDigits n :=
  dash_not_mem_natDigitsGo n n

/-- Splitting a char list at the first dash is unambiguous. -/
theorem append_dash_inj :
    ∀ (as bs xs ys : List Char), '-' ∉ as → '-' ∉ bs →
      as ++ '-' :: xs = bs ++ '-' :: ys → as = bs ∧ xs = ys := by
  intro as
  induction as with
  | nil =>
      intro bs xs ys _ hb h
      cases bs with
      | nil => simpa using h
      | cons b bs' =>
          simp only [List.nil_append, List.cons_append, List.cons.injEq] at h
          exfalso
          apply hb
          rw [h.1]
          exact List.mem_cons_self b bs'
  | cons a as' ih =>
      intro bs xs ys ha hb h
      cases bs with
      | nil =>
          simp only [List.cons_append, List.nil_append, List.cons.injEq] at h
          exfalso
          apply ha
          rw [← h.1]
          exact List.mem_cons_self a as'
      | cons b bs' =>
          simp only [List.cons_append, List.cons.injEq] at h
          obtain ⟨hab, htail⟩ := h
          have ha' : '-' ∉ as' := fun hc => ha (List.mem_cons_of_mem a hc)
          have hb' : '-' ∉ bs' := fun hc => hb (List.mem_cons_of_mem b hc)
          obtain ⟨h1, h2⟩ := ih bs' xs ys ha' hb' htail
          exact ⟨by rw [hab, h1], h2⟩

/-- The composite seat-number string determines the coach letter, the coach
number and the seat index. -/
theorem seatNumberChars_inj {c1 c2 : String} {k1 k2 s1 s2 : Nat}
    (h : seatNumberChars c1 k1 s1 = seatNumberChars c2 k2 s2) :
    coachLetter c1 = coachLetter c2 ∧ k1 = k2 ∧ s1 = s2 := by
  simp only [seatNumberChars, coachName, List.cons_append, List.cons.injEq] at h
  obtain ⟨hl, htail⟩ := h
  obtain ⟨hk, hs⟩ :=
    append_dash_inj _ _ _ _ (dash_not_mem_natDigits k1) (dash_not_mem_natDigits k2) htail
  exact ⟨hl, natDigits_injective hk, natDigits_injective hs⟩

/-! ## Seat-number uniqueness (claim C5) -/

/-- The (coach letter, coach number, seat index) triples one configuration
entry contributes. -/
def entryTriples (e : String × Nat × Nat) : List (Char × Nat × Nat) :=
  (List.range' 1 e.2.1).flatMap fun c =>
    (List.range' 1 e.2.2).map fun s => (coachLetter e.1, c, s)

/-- All triples of the configuration, in generation order. -/
def seatTriples (cfg : ClassesConfig) : List (Char × Nat × Nat) :=
  cfg.flatMap entryTriples

/-- Render a triple as its seat-number string. -/
def tripleStr (t : Char × Nat × Nat) : String :=
  String.mk (t.1 :: (natDigits t.2.1 ++ '-' :: natDigits t.2.2))

theorem rowSeatNumber_mkSeatDict (rid : Nat) (c : String) (k s p : Nat) :
    rowSeatNumber (mkSeatDict rid c k s p) =
      some (SeatVal.s (String.mk (seatNumberChars c k s))) := rfl

theorem tripleStr_injective : Function.Injective tripleStr := by
  intro t1 t2 h
  obtain ⟨a1, b1, c1⟩ := t1
  obtain ⟨a2, b2, c2⟩ := t2
  have h' := congrArg String.data h
  simp only [tripleStr, List.cons.injEq] at h'
  obtain ⟨h1, htail⟩ := h'
  obtain ⟨hk, hs⟩ := append_dash_inj _ _ _ _
    (dash_not_mem_natDigits b1) (dash_not_mem_natDigits b2) htail
  simp [h1, natDigits_injective hk, natDigits_injective hs]

theorem mem_entryTriples_letter {e : String × Nat × Nat} {t : Char × Nat × Nat}
    (h : t ∈ entryTriples e) : t.1 = coachLetter e.1 := by
  simp only [entryTriples, List.mem_flatMap, List.mem_map] at h
  obtain ⟨c, -, s, -, rfl⟩ := h
  rfl

theorem entryTriples_nodup (e : String × Nat × Nat) : (entryTriples e).Nodup := by
  rw [entryTriples, List.nodup_flatMap]
  constructor
  · intro c _
    exact List.Nodup.map (fun s1 s2 h => by simpa using h) (List.nodup_range' _ _)
  · apply List.Pairwise.imp _ ((List.nodup_range' 1 e.2.1 : (List.range' 1 e.2.1).Nodup))
    intro c1 c2 hne
    intro t ht1 ht2
    simp only [List.mem_map] at ht1 ht2
    obtain ⟨s1, -, rfl⟩ := ht1
    obtain ⟨s2, -, h2⟩ := ht2
    exact hne (by simpa using congrArg (fun q => q.2.1) h2.symm)

theorem seatTriples_nodup (cfg : ClassesConfig)
    (hpref : (cfg.map fun e => coachLetter e.1).Nodup) : (seatTriples cfg).Nodup := by
  rw [seatTriples, List.nodup_flatMap]
  refine ⟨fun e _ => entryTriples_nodup e, ?_⟩
  have hp : cfg.Pairwise (fun e1 e2 => coachLetter e1.1 ≠ coachLetter e2.1) := by
    rw [← List.pairwise_map (R := (· ≠ ·))]
    exact hpref
  apply hp.imp
  intro e1 e2 hne t ht1 ht2
  exact hne ((mem_entryTriples_letter ht1).symm.trans (mem_entryTriples_letter ht2))

/-- The seat-number fields of the rows genAllSeats produces, written as the
rendered triples. -/
theorem map_rowSeatNumber_genAllSeats (rid : Nat) (cfg : ClassesConfig)
    (dist : Option Nat) :
    (genAllSeats rid cfg dist).map rowSeatNumber =
      (seatTriples cfg).map fun t => some (SeatVal.s (tripleStr t)) := by
  rw [genAllSeats, seatTriples, List.map_flatMap, List.map_flatMap]
  have he : (fun e : String × Nat × Nat =>
      (generate_seat_rows rid e.1 e.2.1 e.2.2 dist).map rowSeatNumber)
      = fun e => (entryTriples e).map fun t => some (SeatVal.s (tripleStr t)) := by
    funext e
    rw [generate_seat_rows, entryTriples, List.map_flatMap, List.map_flatMap]
    have hc : (fun c =>
        ((List.range' 1 e.2.2).map fun s =>
          mkSeatDict rid e.1 c s (seatPrice e.1 dist)).map rowSeatNumber)
        = fun c => ((List.range' 1 e.2.2).map fun s => (coachLetter e.1, c, s)).map
            fun t => some (SeatVal.s (tripleStr t)) := by
      funext c
      rw [List.map_map, List.map_map]
      rfl
    rw [hc]
  rw [he]

/-- C5 (amended): the composite seat numbers produced for one run are pairwise
distinct provided any two configured classes receive distinct coach letters —
equivalently, the class codes are distinct and at most one of them lies
outside the known coach-letter table. Two class codes outside the table both
receive the default letter X and produce colliding seat numbers. -/
theorem C5_seat_numbers_unique (rid : Nat) (cfg : ClassesConfig) (dist : Option Nat)
    (hpref : (cfg.map fun e => coachLetter e.1).Nodup) :
    ((genAllSeats rid cfg dist).map rowSeatNumber).Nodup := by
  rw [map_rowSeatNumber_genAllSeats]
  refine List.Nodup.map ?_ (seatTriples_nodup cfg hpref)
  intro t1 t2 h
  simp only [Option.some.injEq, SeatVal.s.injEq] at h
  exact tripleStr_injective h

/-- C5 counterexample: a configuration with two class codes outside the
coach-letter table (both coach letter X) yields two seats that share the
composite seat number X1-1, so the produced seat numbers are not distinct. -/
theorem C5_counterexample :
    ¬ ((genAllSeats 1 [("FOO", 1, 1), ("BAR", 1, 1)] none).map rowSeatNumber).Nodup := by
  decide

/-- C5 witness: a concrete configuration with distinct coach letters, on which
the uniqueness theorem applies. -/
theorem C5_witness :
    ((([("SL", 2, 3), ("FOO", 1, 2)] : ClassesConfig).map fun e => coachLetter e.1).Nodup)
    ∧ ((genAllSeats 7 ([("SL", 2, 3), ("FOO", 1, 2)] : ClassesConfig)
        (some 100)).map rowSeatNumber).Nodup :=
  ⟨by decide, C5_seat_numbers_unique 7 _ (some 100) (by decide)⟩

/-! ## Berth classification (claim C2) -/

theorem berth_type_SL (n : Nat) :
    berth_type "SL" n =
      (if n % 8 = 1 ∨ n % 8 = 4 then some "LB"
       else if n % 8 = 2 ∨ n % 8 = 5 then some "MB"
       else if n % 8 = 3 ∨ n % 8 = 6 then some "UB"
       else if n % 8 = 7 then some "SL"
       else some "SU") := rfl

theorem berth_type_3A (n : Nat) : berth_type "3A" n = berth_type "SL" n := rfl

theorem berth_type_2A (n : Nat) :
    berth_type "2A" n =
      (if n % 6 = 1 ∨ n % 6 = 3 ∨ n % 6 = 5 then some "LB" else some "UB") := rfl

theorem berth_type_1A (n : Nat) :
    berth_type "1A" n =
      (if n % 4 = 1 ∨ n % 4 = 3 then some "LB" else some "UB") := rfl

/-- C2 (amended): the berth classification the generator computes is a pure
function of seat index modulo the pattern size — 8 for SL and 3A (with lower,
middle, upper and side berths), 6 for 2A (never a middle berth), 4 for 1A —
and is none for every class outside the four sleeper/AC classes; but the
produced seat rows do not carry it: every generated row has exactly the six
dict keys, and berth_type is not among them. -/
theorem C2_berth_pattern :
    (∀ n, berth_type "SL" n = berth_type "SL" (n % 8)
       ∧ berth_type "3A" n = berth_type "3A" (n % 8)
       ∧ berth_type "2A" n = berth_type "2A" (n % 6)
       ∧ berth_type "1A" n = berth_type "1A" (n % 4))
    ∧ (∀ n, berth_type "2A" n ≠ some "MB" ∧ berth_type "1A" n ≠ some "MB")
    ∧ (∀ c n, c ∉ (["SL", "3A", "2A", "1A"] : List String) → berth_type c n = none)
    ∧ (∀ rid cfg dist row, row ∈ genAllSeats rid cfg dist →
        row.map Prod.fst =
          ["train_run_id", "seat_number", "coach_number", "seat_class", "status",
           "price_cents"]
        ∧ "berth_type" ∉ row.map Prod.fst) := by
  have h8 : ∀ n : Nat, n % 8 % 8 = n % 8 := fun n => by omega
  have h6 : ∀ n : Nat, n % 6 % 6 = n % 6 := fun n => by omega
  have h4 : ∀ n : Nat, n % 4 % 4 = n % 4 := fun n => by omega
  refine ⟨fun n => ?_, fun n => ?_, fun c n hc => ?_, fun rid cfg dist row hrow => ?_⟩
  · refine ⟨?_, ?_, ?_, ?_⟩
    · rw [berth_type_SL, berth_type_SL, h8]
    · rw [berth_type_3A, berth_type_3A, berth_type_SL, berth_type_SL, h8]
    · rw [berth_type_2A, berth_type_2A, h6]
    · rw [berth_type_1A, berth_type_1A, h4]
  · constructor
    · rw [berth_type_2A]
      split <;> simp
    · rw [berth_type_1A]
      split <;> simp
  · unfold berth_type
    exact if_neg hc
  · have hkeys : row.map Prod.fst =
        ["train_run_id", "seat_number", "coach_number", "seat_class", "status",
         "price_cents"] := by
      simp only [genAllSeats, generate_seat_rows, List.mem_flatMap, List.mem_map] at hrow
      obtain ⟨e, -, c, -, s, -, rfl⟩ := hrow
      rfl
    refine ⟨hkeys, ?_⟩
    rw [hkeys]
    decide

/-- C2 counterexample: the single seat generated for one SL coach with one
seat carries exactly the six dict keys — no berth-type attribute, although
the claim says sleeper-class rows carry one. -/
theorem C2_counterexample :
    (generate_seat_rows 1 "SL" 1 1 (some 500)).map (fun row => row.map Prod.fst) =
      [["train_run_id", "seat_number", "coach_number", "seat_class", "status",
        "price_cents"]] := by
  decide

/-- C2 witness: the classification and key facts at concrete inputs. -/
theorem C2_witness :
    (("CC" : String) ∉ (["SL", "3A", "2A", "1A"] : List String))
    ∧ berth_type "CC" 5 = none
    ∧ berth_type "SL" 13 = berth_type "SL" (13 % 8) :=
  ⟨by decide, C2_berth_pattern.2.2.1 "CC" 5 (by decide), (C2_berth_pattern.1 13).1⟩

/-! ## Pricing (claim C4) -/

/-- C4 (amended): every generated row of a class carries price
seatPrice class distance; that price is distance times the table rate only
when the distance is known and nonzero AND the class is present in the rate
table; otherwise the default 500 km distance is used with the table rate or
its default 100 — in particular a class absent from the table always prices
at 500 km, even when the actual distance is known. -/
theorem C4_pricing :
    (∀ rid c coaches spc dist row, row ∈ generate_seat_rows rid c coaches spc dist →
        rowPrice row = some (SeatVal.i (seatPrice c dist)))
    ∧ (∀ c d, d ≠ 0 → (basePricePerKm c).isSome →
        seatPrice c (some d) = d * (basePricePerKm c).getD 0)
    ∧ (∀ c dist, basePricePerKm c = none → seatPrice c dist = 500 * 100)
    ∧ (∀ c, seatPrice c none = 500 * (basePricePerKm c).getD 100)
    ∧ (∀ c, seatPrice c (some 0) = 500 * (basePricePerKm c).getD 100) := by
  refine ⟨fun rid c coaches spc dist row hrow => ?_, fun c d hd hc => ?_,
    fun c dist hc => ?_, fun c => rfl, fun c => ?_⟩
  · simp only [generate_seat_rows, List.mem_flatMap, List.mem_map] at hrow
    obtain ⟨k, -, s, -, rfl⟩ := hrow
    rfl
  · rw [seatPrice, if_pos ⟨hd, hc⟩]
  · cases dist with
    | none => rw [seatPrice, hc]; rfl
    | some d =>
        rw [seatPrice, if_neg, hc]
        · rfl
        · rw [hc]
          simp
  · rw [seatPrice, if_neg]
    simp

/-- C4 counterexample: class XX is absent from the rate table; with a known
distance of 200 km the generated price is 500 × 100 = 50000, not the
200 × 100 = 20000 the claim promises (actual distance is ignored here). -/
theorem C4_counterexample :
    (generate_seat_rows 1 "XX" 1 1 (some 200)).map rowPrice = [some (SeatVal.i 50000)]
    ∧ seatPrice "XX" (some 200) = 50000
    ∧ 50000 ≠ 200 * 100 := by
  refine ⟨by decide, by decide, by decide⟩

/-- C4 witness: pricing facts instantiated at concrete inputs. -/
theorem C4_witness :
    ((300 : Nat) ≠ 0)
    ∧ (basePricePerKm "SL").isSome
    ∧ seatPrice "SL" (some 300) = 300 * (basePricePerKm "SL").getD 0 :=
  ⟨by decide, by decide, C4_pricing.2.1 "SL" 300 (by decide) (by decide)⟩

/-! ## Idempotence of seat generation (claim C3) -/

/-- C3: seat generation for a run that already has seats returns zero created
and leaves the state (seats and counters) untouched; invoked twice on a run
with no seats, the second call creates zero and changes nothing, so seats are
created only by the first call. -/
theorem C3_generation_idempotent (rid : Nat) (cfg : ClassesConfig) (dist : Option Nat) :
    (∀ st : RunState, st.seats ≠ [] →
        generate_seats_for_train_run rid cfg dist st = (0, st))
    ∧ (∀ st : RunState, st.seats = [] →
        generate_seats_for_train_run rid cfg dist
            (generate_seats_for_train_run rid cfg dist st).2
          = (0, (generate_seats_for_train_run rid cfg dist st).2)
        ∧ (generate_seats_for_train_run rid cfg dist st).2.seats.length
          = (generate_seats_for_train_run rid cfg dist st).1) := by
  constructor
  · intro st hst
    rw [generate_seats_for_train_run, if_pos (List.length_pos.mpr hst)]
  · intro st hst
    by_cases hA : (genAllSeats rid cfg dist).isEmpty
    · have hAnil : genAllSeats rid cfg dist = [] := List.isEmpty_iff.mp hA
      have h1 : generate_seats_for_train_run rid cfg dist st = (0, st) := by
        rw [generate_seats_for_train_run, if_neg (by simp [hst])]
        simp [hA, hAnil]
      rw [h1]
      exact ⟨h1, by simp [hst]⟩
    · have hlen : 0 < (genAllSeats rid cfg dist).length := by
        cases hgen : genAllSeats rid cfg dist with
        | nil => rw [hgen] at hA; simp at hA
        | cons a l => simp
      have h1 : generate_seats_for_train_run rid cfg dist st =
          ((genAllSeats rid cfg dist).length,
           { st with
              seats := st.seats ++ genAllSeats rid cfg dist,
              totalSeats := ((genAllSeats rid cfg dist).length : Int),
              availableSeats := ((genAllSeats rid cfg dist).length : Int) }) := by
        rw [generate_seats_for_train_run, if_neg (by simp [hst]), if_neg (by simp [hA])]
      rw [h1]
      constructor
      · rw [generate_seats_for_train_run, if_pos (by simp [hst, hlen])]
      · simp [hst]

/-- C3 witness: on an empty run, the second invocation is a no-op. -/
theorem C3_witness :
    (({ seats := [], status := "SCHEDULED", totalSeats := 0,
        availableSeats := 0 } : RunState).seats = [])
    ∧ generate_seats_for_train_run 1 [("SL", 1, 2)] (some 100)
        (generate_seats_for_train_run 1 [("SL", 1, 2)] (some 100)
          { seats := [], status := "SCHEDULED", totalSeats := 0, availableSeats := 0 }).2
        = (0, (generate_seats_for_train_run 1 [("SL", 1, 2)] (some 100)
            { seats := [], status := "SCHEDULED", totalSeats := 0, availableSeats := 0 }).2) :=
  ⟨rfl, ((C3_generation_idempotent 1 [("SL", 1, 2)] (some 100)).2
      { seats := [], status := "SCHEDULED", totalSeats := 0, availableSeats := 0 } rfl).1⟩

/-! ## Run counters (claim C9) -/

/-- C9 (amended): after generation for a selected run, the run totals are the
generated seat count and the two counters are equal; runs inserted by
create_sample_train_runs are preset to total = available = 100 — equal, but
not derived from the (zero) seats existing at creation time. -/
theorem C9_run_counters (rid : Nat) (cfg : ClassesConfig) (dist : Option Nat)
    (st : RunState) :
    ((generate_seats_for_runs_step rid cfg dist st).2.totalSeats
        = ((genAllSeats rid cfg dist).length : Int)
      ∧ (generate_seats_for_runs_step rid cfg dist st).2.availableSeats
        = (generate_seats_for_runs_step rid cfg dist st).2.totalSeats
      ∧ (generate_seats_for_runs_step rid cfg dist st).1
        = (genAllSeats rid cfg dist).length)
    ∧ create_sample_train_run.totalSeats = create_sample_train_run.availableSeats :=
  ⟨⟨rfl, rfl, rfl⟩, rfl⟩

/-- C9 counterexample: a freshly created sample run has zero seats but a
preset total of 100, so its counters are not derived from generated seats. -/
theorem C9_counterexample :
    create_sample_train_run.seats.length = 0
    ∧ create_sample_train_run.totalSeats = 100
    ∧ create_sample_train_run.totalSeats ≠ (create_sample_train_run.seats.length : Int) :=
  ⟨rfl, rfl, by decide⟩

/-! ## Schedule reconciliation lemmas (claims C1 and C7) -/

theorem length_stableInsert (lt : α → α → Bool) (x : α) :
    ∀ l : List α, (stableInsert lt x l).length = l.length + 1 := by
  intro l
  induction l with
  | nil => rfl
  | cons y ys ih =>
      simp only [stableInsert]
      split
      · simp only [List.length_cons, ih]
      · simp only [List.length_cons]

theorem length_pySorted (lt : α → α → Bool) :
    ∀ l : List α, (pySorted lt l).length = l.length := by
  intro l
  induction l with
  | nil => rfl
  | cons x xs ih => rw [pySorted, length_stableInsert, ih, List.length_cons]

theorem mem_stableInsert (lt : α → α → Bool) (x y : α) :
    ∀ l : List α, (y ∈ stableInsert lt x l ↔ y = x ∨ y ∈ l) := by
  intro l
  induction l with
  | nil => simp [stableInsert]
  | cons z zs ih =>
      rw [stableInsert]
      split
      · simp only [List.mem_cons, ih]
        tauto
      · simp only [List.mem_cons]

theorem mem_pySorted (lt : α → α → Bool) (y : α) :
    ∀ l : List α, (y ∈ pySorted lt l ↔ y ∈ l) := by
  intro l
  induction l with
  | nil => simp [pySorted]
  | cons x xs ih =>
      rw [pySorted, mem_stableInsert]
      simp [ih]

theorem map_seq_upsertStop (stops : List StopRow) (r : StopRow) (x : Nat) :
    x ∈ (upsertStop stops r).map StopRow.seq ↔
      x ∈ stops.map StopRow.seq ∨ x = r.seq := by
  rw [upsertStop]
  split
  next hany =>
    have hmem : r.seq ∈ stops.map StopRow.seq := by
      rcases List.any_eq_true.mp hany with ⟨s, hs, hseq⟩
      exact List.mem_map.mpr ⟨s, hs, by simpa using hseq⟩
    have hmap : ((stops.map fun s =>
        if s.seq == r.seq then
          { s with
              station := r.station, arrival := r.arrival,
              departure := r.departure, dayOffset := r.dayOffset }
        else s).map StopRow.seq) = stops.map StopRow.seq := by
      rw [List.map_map]
      apply List.map_congr_left
      intro s _
      by_cases h : s.seq = r.seq <;> simp [h]
    rw [hmap]
    constructor
    · exact Or.inl
    · rintro (h | rfl)
      · exact h
      · exact hmem
  next =>
    simp [List.map_append]

theorem dayOffset_upsertStop {P : Int → Prop} (stops : List StopRow) (r : StopRow)
    (hst : ∀ s ∈ stops, P s.dayOffset) (hr : P r.dayOffset) :
    ∀ s ∈ upsertStop stops r, P s.dayOffset := by
  rw [upsertStop]
  split
  · intro s hs
    rcases List.mem_map.mp hs with ⟨s0, hs0, rfl⟩
    by_cases h : s0.seq == r.seq
    · simpa [h] using hr
    · simpa [h] using hst s0 hs0
  · intro s hs
    rcases List.mem_append.mp hs with h | h
    · exact hst s h
    · rw [List.mem_singleton.mp h]
      exact hr

theorem foldl_upsert_mem_seq (rows : List StopRow) :
    ∀ (stops : List StopRow) (x : Nat),
      (x ∈ (rows.foldl upsertStop stops).map StopRow.seq ↔
        x ∈ stops.map StopRow.seq ∨ x ∈ rows.map StopRow.seq) := by
  induction rows with
  | nil => simp
  | cons r rs ih =>
      intro stops x
      rw [List.foldl_cons, ih, map_seq_upsertStop]
      simp only [List.map_cons, List.mem_cons]
      tauto

theorem foldl_upsert_dayOffset {P : Int → Prop} (rows : List StopRow) :
    ∀ stops : List StopRow, (∀ s ∈ stops, P s.dayOffset) →
      (∀ s ∈ rows, P s.dayOffset) →
      ∀ s ∈ rows.foldl upsertStop stops, P s.dayOffset := by
  induction rows with
  | nil =>
      intro stops hst _
      exact hst
  | cons r rs ih =>
      intro stops hst hrows
      rw [List.foldl_cons]
      apply ih
      · exact dayOffset_upsertStop stops r hst (hrows r (List.mem_cons_self r rs))
      · intro s hs
        exact hrows s (List.mem_cons_of_mem r hs)

/-- The rows the reconciler upserts for a record list, in order. -/
def reconcileRows (records : List SchedRecord) : List StopRow :=
  ((List.range' 1 (pySorted schedKeyLt records).length).zip
    (pySorted schedKeyLt records)).map fun p => recordToStop p.1 p.2

theorem import_schedules_train_eq_foldl (stops0 : List StopRow)
    (records : List SchedRecord) :
    import_schedules_train stops0 records =
      (reconcileRows records).foldl upsertStop stops0 := by
  rw [import_schedules_train, reconcileRows, List.foldl_map]

theorem map_seq_reconcileRows (records : List SchedRecord) :
    (reconcileRows records).map StopRow.seq = List.range' 1 records.length := by
  rw [reconcileRows, List.map_map]
  have h1 : (StopRow.seq ∘ fun p : Nat × SchedRecord => recordToStop p.1 p.2)
      = Prod.fst := by
    funext p
    rfl
  rw [h1, List.map_fst_zip, length_pySorted]
  rw [List.length_range', length_pySorted]

theorem dayOffset_reconcileRows (records : List SchedRecord)
    (hday : ∀ r ∈ records, ∀ d, r.day = some d → 1 ≤ d) :
    ∀ s ∈ reconcileRows records, 0 ≤ s.dayOffset := by
  intro s hs
  rw [reconcileRows] at hs
  rcases List.mem_map.mp hs with ⟨p, hp, rfl⟩
  obtain ⟨a, b⟩ := p
  have hrec : b ∈ records := by
    rw [← mem_pySorted schedKeyLt]
    exact (List.of_mem_zip hp).2
  show (0 : Int) ≤ b.day.getD 1 - 1
  cases hb : b.day with
  | none => simp
  | some d =>
      have := hday b hrec d hb
      simp only [Option.getD_some]
      omega

/-- C1 (amended): after reconciliation the stored sequence numbers are the
union of the pre-existing draft sequences with 1..N, N the number of schedule
records for the train; so they form exactly the set 1..N whenever the draft
rows all lie inside 1..N (in particular when no draft exists), and every
stored day offset is nonnegative provided the draft offsets were and every
present day field is at least 1. Leftover draft rows with sequence above N
are NOT deleted by the upsert, which refutes the claim as stated. -/
theorem C1_reconciled_sequences (stops0 : List StopRow) (records : List SchedRecord)
    (h0seq : ∀ s ∈ stops0, 1 ≤ s.seq ∧ s.seq ≤ records.length)
    (h0off : ∀ s ∈ stops0, 0 ≤ s.dayOffset)
    (hday : ∀ r ∈ records, ∀ d, r.day = some d → 1 ≤ d) :
    (∀ x, x ∈ (import_schedules_train stops0 records).map StopRow.seq ↔
        1 ≤ x ∧ x ≤ records.length)
    ∧ ∀ s ∈ import_schedules_train stops0 records, 0 ≤ s.dayOffset := by
  rw [import_schedules_train_eq_foldl]
  constructor
  · intro x
    rw [foldl_upsert_mem_seq, map_seq_reconcileRows, List.mem_range'_1]
    constructor
    · rintro (h | h)
      · rcases List.mem_map.mp h with ⟨s, hs, rfl⟩
        exact h0seq s hs
      · omega
    · intro hx
      right
      omega
  · exact foldl_upsert_dayOffset _ _ h0off (dayOffset_reconcileRows records hday)

/-- Draft stop rows as the route mapper persists them: dense sequences from 1,
no times, day offset at its column default 0. -/
def draftStops : List StopRow :=
  [{ seq := 1, station := "A", arrival := none, departure := none, dayOffset := 0 },
   { seq := 2, station := "B", arrival := none, departure := none, dayOffset := 0 },
   { seq := 3, station := "C", arrival := none, departure := none, dayOffset := 0 }]

/-- A single schedule record. -/
def schedRecD : SchedRecord :=
  { station_code := "D", day := some 1, arrival := some "09:00:00",
    departure := some "09:05:00" }

/-- C1 counterexample: a train whose draft has 3 stop rows reconciled against
a single schedule record (N = 1) keeps sequence 2 in its stop table, so the
sequence set is not exactly 1..N. -/
theorem C1_counterexample :
    2 ∈ (import_schedules_train draftStops [schedRecD]).map StopRow.seq
    ∧ ([schedRecD] : List SchedRecord).length = 1
    ∧ ¬ (2 ≤ 1) := by
  refine ⟨by decide, rfl, by decide⟩

/-- A day-1 record with no times. -/
def recDay1 : SchedRecord :=
  { station_code := "D", day := some 1, arrival := none, departure := none }

/-- A day-2 record with the literal None sentinel in both time fields. -/
def recDay2 : SchedRecord :=
  { station_code := "E", day := some 2, arrival := some "None",
    departure := some "None" }

/-- C1 witness: reconciling two records into an empty stop table. -/
theorem C1_witness :
    (∀ s ∈ ([] : List StopRow),
        1 ≤ s.seq ∧ s.seq ≤ ([recDay1, recDay2] : List SchedRecord).length)
    ∧ (∀ s ∈ ([] : List StopRow), 0 ≤ s.dayOffset)
    ∧ (∀ r ∈ ([recDay1, recDay2] : List SchedRecord), ∀ d, r.day = some d → 1 ≤ d)
    ∧ ((∀ x, x ∈ (import_schedules_train [] [recDay1, recDay2]).map StopRow.seq ↔
          1 ≤ x ∧ x ≤ ([recDay1, recDay2] : List SchedRecord).length)
       ∧ ∀ s ∈ import_schedules_train [] [recDay1, recDay2], 0 ≤ s.dayOffset) := by
  have hday2 : ∀ r ∈ ([recDay1, recDay2] : List SchedRecord), ∀ d,
      r.day = some d → 1 ≤ d := by
    intro r hr d hd
    rcases List.mem_cons.mp hr with rfl | hr
    · simp [recDay1] at hd
      omega
    · rcases List.mem_cons.mp hr with rfl | hr
      · simp [recDay2] at hd
        omega
      · simp at hr
  exact ⟨by simp, by simp, hday2,
    C1_reconciled_sequences [] [recDay1, recDay2] (by simp) (by simp) hday2⟩

/-- C7 (amended): the reconciler sort key is (day with absent treated as 1,
departure with a true null treated as the string 00:00:00); the literal
string None is NOT treated as absent by the sort: it is compared verbatim,
and since N exceeds every digit character it sorts after every
digit-starting departure time within the same day (it is only normalized to
null later, when the row is stored). -/
theorem C7_schedule_sort_key :
    (∀ r : SchedRecord, r.departure = none → schedDep r = "00:00:00")
    ∧ (∀ r : SchedRecord, r.day = none → schedDay r = 1)
    ∧ (∀ r1 r2 : SchedRecord, r1.departure = some "None" →
        schedDay r1 = schedDay r2 →
        ∀ c cs, (schedDep r2).data = c :: cs → '0' ≤ c → c ≤ '9' →
          schedKeyLt r2 r1 = true ∧ schedKeyLt r1 r2 = false) := by
  refine ⟨fun r h => by rw [schedDep, h]; rfl,
          fun r h => by rw [schedDay, h]; rfl,
          fun r1 r2 h1 hdayEq c cs hdep h0 h9 => ?_⟩
  have hdep1 : (schedDep r1).data = ['N', 'o', 'n', 'e'] := by
    rw [schedDep, h1]
    rfl
  have hcN : c < 'N' := lt_of_le_of_lt h9 (by decide)
  have hNc : ¬ ('N' < c) := lt_asymm hcN
  constructor
  · rw [schedKeyLt, hdayEq, if_neg (lt_irrefl _), if_neg (lt_irrefl _)]
    rw [hdep, hdep1]
    simp [strLtChars, hcN]
  · rw [schedKeyLt, hdayEq, if_neg (lt_irrefl _), if_neg (lt_irrefl _)]
    rw [hdep, hdep1]
    simp [strLtChars, hcN, hNc]

/-- A record whose departure is the literal string None. -/
def recNoneDep : SchedRecord :=
  { station_code := "X", day := some 1, arrival := none, departure := some "None" }

/-- A record departing at 10:00:00 on the same day. -/
def recTenDep : SchedRecord :=
  { station_code := "Y", day := some 1, arrival := none,
    departure := some "10:00:00" }

/-- C7 counterexample: the literal-None departure is kept verbatim in the
sort key (not replaced by 00:00:00) and sorts after a 10:00:00 departure of
the same day, while the claim says it sorts earliest. -/
theorem C7_counterexample :
    schedDep recNoneDep = "None"
    ∧ schedDep recNoneDep ≠ "00:00:00"
    ∧ schedKeyLt recTenDep recNoneDep = true
    ∧ pySorted schedKeyLt [recNoneDep, recTenDep] = [recTenDep, recNoneDep] := by
  refine ⟨rfl, by decide, by decide, by decide⟩

/-- C7 witness: the sort-key facts instantiated at two concrete records. -/
theorem C7_witness :
    (recNoneDep.departure = some "None")
    ∧ schedDay recNoneDep = schedDay recTenDep
    ∧ (schedDep recTenDep).data = '1' :: ['0', ':', '0', '0', ':', '0', '0']
    ∧ (schedKeyLt recTenDep recNoneDep = true
       ∧ schedKeyLt recNoneDep recTenDep = false) := by
  refine ⟨rfl, rfl, rfl, ?_⟩
  exact C7_schedule_sort_key.2.2 recNoneDep recTenDep rfl rfl '1' _ rfl
    (by decide) (by decide)

/-! ## Route mapper lemmas (claims C8 and C10) -/

theorem mapRouteGo_chain (find : C → Option (String × ℚ)) :
    ∀ (coords : List C) (idx : Nat) (prev : Option String),
      List.Chain' (fun a b : String × Nat => a.1 ≠ b.1)
        (mapRouteGo find coords idx prev).1
      ∧ ∀ p, (mapRouteGo find coords idx prev).1.head? = some p →
          some p.1 ≠ prev := by
  intro coords
  induction coords with
  | nil =>
      intro idx prev
      exact ⟨List.chain'_nil, by simp [mapRouteGo]⟩
  | cons c rest ih =>
      intro idx prev
      simp only [mapRouteGo]
      cases hf : find c with
      | none => exact ih (idx + 1) prev
      | some cd =>
          obtain ⟨code, dist⟩ := cd
          by_cases hacc : some code ≠ prev
          · simp only [if_pos hacc]
            obtain ⟨hchain, hhead⟩ := ih (idx + 1) (some code)
            constructor
            · rw [List.chain'_cons']
              refine ⟨?_, hchain⟩
              intro p hp
              have := hhead p hp
              simp only [ne_eq, Option.some.injEq] at this ⊢
              exact fun h => this h.symm
            · intro p hp
              simp only [List.head?_cons, Option.some.injEq] at hp
              rw [← hp]
              exact hacc
          · simp only [if_neg hacc]
            exact ih (idx + 1) prev

theorem mapRouteGo_idx_ge (find : C → Option (String × ℚ)) :
    ∀ (coords : List C) (idx : Nat) (prev : Option String),
      ∀ p ∈ (mapRouteGo find coords idx prev).1, idx ≤ p.2 := by
  intro coords
  induction coords with
  | nil =>
      intro idx prev p hp
      simp [mapRouteGo] at hp
  | cons c rest ih =>
      intro idx prev p hp
      simp only [mapRouteGo] at hp
      cases hf : find c with
      | none =>
          rw [hf] at hp
          exact Nat.le_of_succ_le (ih (idx + 1) prev p hp)
      | some cd =>
          obtain ⟨code, dist⟩ := cd
          rw [hf] at hp
          by_cases hacc : some code ≠ prev
          · simp only [if_pos hacc, List.mem_cons] at hp
            rcases hp with rfl | hp
            · exact le_rfl
            · exact Nat.le_of_succ_le (ih (idx + 1) (some code) p hp)
          · simp only [if_neg hacc] at hp
            exact Nat.le_of_succ_le (ih (idx + 1) prev p hp)

theorem mapRouteGo_idx_sorted (find : C → Option (String × ℚ)) :
    ∀ (coords : List C) (idx : Nat) (prev : Option String),
      List.Pairwise (fun a b : String × Nat => a.2 < b.2)
        (mapRouteGo find coords idx prev).1 := by
  intro coords
  induction coords with
  | nil =>
      intro idx prev
      simp [mapRouteGo]
  | cons c rest ih =>
      intro idx prev
      simp only [mapRouteGo]
      cases hf : find c with
      | none => exact ih (idx + 1) prev
      | some cd =>
          obtain ⟨code, dist⟩ := cd
          by_cases hacc : some code ≠ prev
          · simp only [if_pos hacc]
            rw [List.pairwise_cons]
            refine ⟨?_, ih (idx + 1) (some code)⟩
            intro p hp
            exact Nat.lt_of_succ_le (mapRouteGo_idx_ge find rest (idx + 1) (some code) p hp)
          · simp only [if_neg hacc]
            exact ih (idx + 1) prev

theorem mapRouteGo_none_case (find : C → Option (String × ℚ)) :
    ∀ (coords : List C) (idx : Nat) (prev : Option String) (i : Nat)
      (hi : i < coords.length),
      find (coords.get ⟨i, hi⟩) = none →
        (∀ p ∈ (mapRouteGo find coords idx prev).1, p.2 ≠ idx + i)
        ∧ ∃ w ∈ (mapRouteGo find coords idx prev).2,
            w.kind = WarnKind.NO_STATION_NEARBY ∧ w.coordIndex = idx + i := by
  intro coords
  induction coords with
  | nil =>
      intro idx prev i hi
      exact absurd hi (by simp)
  | cons c rest ih =>
      intro idx prev i hi hf
      cases i with
      | zero =>
          simp only [List.get] at hf
          constructor
          · intro p hp
            simp only [mapRouteGo, hf] at hp
            have := mapRouteGo_idx_ge find rest (idx + 1) prev p hp
            omega
          · simp only [mapRouteGo, hf]
            exact ⟨_, List.mem_cons_self _ _, rfl, by simp⟩
      | succ j =>
          have hj : j < rest.length := by
            simp only [List.length_cons] at hi
            omega
          have hf' : find (rest.get ⟨j, hj⟩) = none := by
            simpa using hf
          constructor
          · intro p hp
            simp only [mapRouteGo] at hp
            cases hfc : find c with
            | none =>
                rw [hfc] at hp
                have := (ih (idx + 1) prev j hj hf').1 p hp
                omega
            | some cd =>
                obtain ⟨code, dist⟩ := cd
                rw [hfc] at hp
                by_cases hacc : some code ≠ prev
                · simp only [if_pos hacc, List.mem_cons] at hp
                  rcases hp with rfl | hp
                  · simp only
                    omega
                  · have := (ih (idx + 1) (some code) j hj hf').1 p hp
                    omega
                · simp only [if_neg hacc] at hp
                  have := (ih (idx + 1) prev j hj hf').1 p hp
                  omega
          · simp only [mapRouteGo]
            cases hfc : find c with
            | none =>
                obtain ⟨w, hw, hk, hidx⟩ := (ih (idx + 1) prev j hj hf').2
                exact ⟨w, List.mem_cons_of_mem _ hw, hk, by omega⟩
            | some cd =>
                obtain ⟨code, dist⟩ := cd
                by_cases hacc : some code ≠ prev
                · simp only [if_pos hacc]
                  obtain ⟨w, hw, hk, hidx⟩ := (ih (idx + 1) (some code) j hj hf').2
                  refine ⟨w, ?_, hk, by omega⟩
                  by_cases hd : dist > 5
                  · simp only [if_pos hd]
                    exact List.mem_cons_of_mem _ hw
                  · simp only [if_neg hd]
                    exact hw
                · simp only [if_neg hacc]
                  obtain ⟨w, hw, hk, hidx⟩ := (ih (idx + 1) prev j hj hf').2
                  refine ⟨w, ?_, hk, by omega⟩
                  by_cases hd : dist > 5
                  · simp only [if_pos hd]
                    exact List.mem_cons_of_mem _ hw
                  · simp only [if_neg hd]
                    exact hw

/-- C8: for any coordinate sequence and any nearest-station oracle, the
accepted stop list has no two adjacent equal station codes, its coordinate
indices are strictly increasing (so relative order matches acceptance
order along the input), and a coordinate with no station within the radius
contributes no stop while a NO_STATION_NEARBY warning with its index is
emitted. -/
theorem C8_route_mapper (find : C → Option (String × ℚ)) (coords : List C) :
    List.Chain' (fun a b : String × Nat => a.1 ≠ b.1)
      (map_route_to_stations find coords).1
    ∧ List.Pairwise (fun a b : String × Nat => a.2 < b.2)
      (map_route_to_stations find coords).1
    ∧ ∀ (i : Nat) (hi : i < coords.length), find (coords.get ⟨i, hi⟩) = none →
        (∀ p ∈ (map_route_to_stations find coords).1, p.2 ≠ i)
        ∧ ∃ w ∈ (map_route_to_stations find coords).2,
            w.kind = WarnKind.NO_STATION_NEARBY ∧ w.coordIndex = i := by
  refine ⟨(mapRouteGo_chain find coords 0 none).1,
    mapRouteGo_idx_sorted find coords 0 none, ?_⟩
  intro i hi hf
  have h := mapRouteGo_none_case find coords 0 none i hi hf
  simpa using h

/-- A nearest-station oracle that finds station A at 2 km for the first
coordinate and nothing for the others. -/
def findW : Nat → Option (String × ℚ)
  | 0 => some ("A", 2)
  | _ => none

/-- C8 witness: the mapper on two coordinates whose second has no station. -/
theorem C8_witness :
    findW (([0, 1] : List Nat).get ⟨1, by decide⟩) = none
    ∧ ((∀ p ∈ (map_route_to_stations findW [0, 1]).1, p.2 ≠ 1)
       ∧ ∃ w ∈ (map_route_to_stations findW [0, 1]).2,
           w.kind = WarnKind.NO_STATION_NEARBY ∧ w.coordIndex = 1) :=
  ⟨rfl, (C8_route_mapper findW [0, 1]).2.2 1 (by decide) rfl⟩

/-- A nearest-station oracle that finds station A at 6 km everywhere. -/
def findSix : Nat → Option (String × ℚ) :=
  fun _ => some ("A", 6)

/-- C10: a coordinate whose nearest station is farther than 5 km emits a
LARGE_DISTANCE warning even when that station equals the previously accepted
one, in which case the coordinate contributes no stop; consequently (closed
instance) the large-distance warnings of a route can outnumber its accepted
stops. -/
theorem C10_large_distance_warnings (find : C → Option (String × ℚ))
    (c : C) (rest : List C) (idx : Nat) (code : String) (dist : ℚ)
    (hf : find c = some (code, dist)) (hdist : dist > 5) :
    ((∃ w ∈ (mapRouteGo find (c :: rest) idx (some code)).2,
        w.kind = WarnKind.LARGE_DISTANCE ∧ w.coordIndex = idx
        ∧ w.nearestStation = some code ∧ w.distanceKm = some dist)
      ∧ (mapRouteGo find (c :: rest) idx (some code)).1
          = (mapRouteGo find rest (idx + 1) (some code)).1)
    ∧ ((map_route_to_stations findSix [0, 1]).2.filter
          (fun w => decide (w.kind = WarnKind.LARGE_DISTANCE))).length
        > (map_route_to_stations findSix [0, 1]).1.length := by
  have hacc : ¬ (some code ≠ some code) := fun h => h rfl
  have hgo : mapRouteGo find (c :: rest) idx (some code)
      = ((mapRouteGo find rest (idx + 1) (some code)).1,
         { kind := WarnKind.LARGE_DISTANCE, coordIndex := idx, coord := c,
           nearestStation := some code, distanceKm := some dist }
           :: (mapRouteGo find rest (idx + 1) (some code)).2) := by
    simp only [mapRouteGo, hf, if_neg hacc, if_pos hdist]
  refine ⟨⟨?_, ?_⟩, ?_⟩
  · rw [hgo]
    exact ⟨_, List.mem_cons_self _ _, rfl, rfl, rfl, rfl⟩
  · rw [hgo]
  · decide

/-- C10 witness: the oracle that sees station A at 6 km for every coordinate,
with A already the previously accepted station. -/
theorem C10_witness :
    findSix 0 = some ("A", 6)
    ∧ ((6 : ℚ) > 5)
    ∧ (((∃ w ∈ (mapRouteGo findSix ([0] : List Nat) 1 (some "A")).2,
          w.kind = WarnKind.LARGE_DISTANCE ∧ w.coordIndex = 1
          ∧ w.nearestStation = some "A" ∧ w.distanceKm = some 6)
        ∧ (mapRouteGo findSix ([0] : List Nat) 1 (some "A")).1
            = (mapRouteGo findSix ([] : List Nat) 2 (some "A")).1)
       ∧ ((map_route_to_stations findSix [0, 1]).2.filter
            (fun w => decide (w.kind = WarnKind.LARGE_DISTANCE))).length
          > (map_route_to_stations findSix [0, 1]).1.length) :=
  ⟨rfl, by decide, C10_large_distance_warnings findSix 0 [] 1 "A" 6 rfl (by decide)⟩

end Railway

